import Mathlib

/-!
Verification of the outfit-picker repository against its specification.

Part 1 embeds the frontend helpers from `frontend/app/page.js`:
the carousel index arithmetic (`prevIndex`, `nextIndex`), the
index-clamping performed by `refreshAll`, and the request body built by
`handleGenerate`.

Part 2 models the backend core (FastAPI `main.py`, not present in the
source tree): fingerprinting, the cache index `Put` rule, the Generate
orchestration, item deletion and the auto-pick recommender, each
modelled from the specification's words.

Part 3 is a small interleaving semantics for the single-flight
per-fingerprint locking protocol of the Generation Orchestrator.
-/

/-! ### Part 1: frontend helpers (`frontend/app/page.js`) -/

/-- From `page.js`: `prevIndex(current, length)` returns 0 when the list is
empty and otherwise `(current - 1 + length) % length`, using JavaScript's
truncating remainder (`Int.tmod`). -/
def prevIndex (current length : Int) : Int :=
  if length = 0 then 0 else Int.tmod (current - 1 + length) length

/-- From `page.js`: `nextIndex(current, length)` returns 0 when the list is
empty and otherwise `(current + 1) % length`. -/
def nextIndex (current length : Int) : Int :=
  if length = 0 then 0 else Int.tmod (current + 1) length

/-- A wardrobe item as the frontend sees it (`id`, `filename`, `tags`). -/
structure WItem where
  id : String
  filename : String
  tags : List String
deriving DecidableEq

/-- A reference photo as the frontend sees it. -/
structure RefPhoto where
  id : String
  filename : String
deriving DecidableEq

/-- From `page.js`: `tops.length > 0 ? tops[topIndex] : null`, the item a
carousel currently shows. -/
def selectedItem {α : Type} (l : List α) (i : Nat) : Option α :=
  if 0 < l.length then l.get? i else none

/-- From `refreshAll` in `page.js`:
`(i) => (newList.length === 0 ? 0 : Math.min(i, newList.length - 1))`. -/
def clampIndex (i len : Nat) : Nat :=
  if len = 0 then 0 else min i (len - 1)

/-- The carousel-relevant component state of the page. -/
structure CarouselUI where
  tops : List WItem
  bottoms : List WItem
  refs : List RefPhoto
  topIndex : Nat
  bottomIndex : Nat
  refIndex : Nat
deriving DecidableEq

/-- From `refreshAll` in `page.js`: store the freshly fetched lists and clamp
each carousel index to the new list length. -/
def refreshAll (s : CarouselUI) (newTops newBottoms : List WItem)
    (newRefs : List RefPhoto) : CarouselUI :=
  { tops := newTops
    bottoms := newBottoms
    refs := newRefs
    topIndex := clampIndex s.topIndex newTops.length
    bottomIndex := clampIndex s.bottomIndex newBottoms.length
    refIndex := clampIndex s.refIndex newRefs.length }

/-- The JSON body `handleGenerate` posts to `/generate`. -/
structure GenerateRequest where
  top_id : String
  bottom_id : String
  theme : String
  ref_id : Option String
deriving DecidableEq

/-- From `handleGenerate` in `page.js`: the request body is
`{top_id: selectedTop.id, bottom_id: selectedBottom.id, theme,
ref_id: selectedRef ? selectedRef.id : null}`. -/
def handleGenerateBody (selectedTop selectedBottom : WItem) (theme : String)
    (selectedRef : Option RefPhoto) : GenerateRequest :=
  { top_id := selectedTop.id
    bottom_id := selectedBottom.id
    theme := theme
    ref_id := match selectedRef with
      | some r => some r.id
      | none => none }

lemma prevIndex_eq (i l : Int) (hl : 0 < l) (h0 : 0 ≤ i) (hi : i < l) :
    prevIndex i l = if i = 0 then l - 1 else i - 1 := by
  unfold prevIndex
  rw [if_neg (by omega), Int.tmod_eq_emod (by omega) (by omega)]
  by_cases h : i = 0
  · subst h
    rw [if_pos rfl]
    have e : (0 : Int) - 1 + l = l - 1 := by ring
    rw [e]
    exact Int.emod_eq_of_lt (by omega) (by omega)
  · rw [if_neg h]
    have e : i - 1 + l = (i - 1) + l * 1 := by ring
    rw [e, Int.add_mul_emod_self_left]
    exact Int.emod_eq_of_lt (by omega) (by omega)

lemma nextIndex_eq (i l : Int) (hl : 0 < l) (h0 : 0 ≤ i) (hi : i < l) :
    nextIndex i l = if i = l - 1 then 0 else i + 1 := by
  unfold nextIndex
  rw [if_neg (by omega), Int.tmod_eq_emod (by omega) (by omega)]
  by_cases h : i = l - 1
  · subst h
    rw [if_pos rfl]
    have e : l - 1 + 1 = l := by ring
    rw [e]
    exact Int.emod_self
  · rw [if_neg h]
    exact Int.emod_eq_of_lt (by omega) (by omega)

/-- Claim C9: carousel navigation is a length-preserving cycle: for every
length `l > 0` and index `0 ≤ i < l`, `prevIndex i l` and `nextIndex i l`
both lie in `[0, l)` and are mutual inverses; for `l = 0` both return 0. -/
theorem carousel_cycle (i l : Int) :
    (0 < l → 0 ≤ i → i < l →
      (0 ≤ prevIndex i l ∧ prevIndex i l < l) ∧
      (0 ≤ nextIndex i l ∧ nextIndex i l < l) ∧
      nextIndex (prevIndex i l) l = i ∧
      prevIndex (nextIndex i l) l = i) ∧
    prevIndex i 0 = 0 ∧ nextIndex i 0 = 0 := by
  refine ⟨?_, rfl, rfl⟩
  intro hl h0 hi
  rw [prevIndex_eq i l hl h0 hi, nextIndex_eq i l hl h0 hi]
  by_cases h : i = 0
  · subst h
    rw [if_pos rfl]
    by_cases h1 : (0 : Int) = l - 1
    · rw [if_pos h1]
      constructor
      · constructor <;> omega
      constructor
      · constructor <;> omega
      constructor
      · rw [nextIndex_eq (l - 1) l hl (by omega) (by omega), if_pos rfl]
      · rw [prevIndex_eq 0 l hl (by omega) (by omega), if_pos rfl]
        omega
    · rw [if_neg h1]
      constructor
      · constructor <;> omega
      constructor
      · constructor <;> omega
      constructor
      · rw [nextIndex_eq (l - 1) l hl (by omega) (by omega), if_pos rfl]
      · rw [prevIndex_eq (0 + 1) l hl (by omega) (by omega),
          if_neg (by omega)]
        omega
  · rw [if_neg h]
    by_cases h1 : i = l - 1
    · rw [if_pos h1]
      constructor
      · constructor <;> omega
      constructor
      · constructor <;> omega
      constructor
      · rw [nextIndex_eq (i - 1) l hl (by omega) (by omega),
          if_neg (by omega)]
        omega
      · rw [prevIndex_eq 0 l hl (by omega) (by omega), if_pos rfl]
        omega
    · rw [if_neg h1]
      constructor
      · constructor <;> omega
      constructor
      · constructor <;> omega
      constructor
      · rw [nextIndex_eq (i - 1) l hl (by omega) (by omega),
          if_neg (by omega)]
        omega
      · rw [prevIndex_eq (i + 1) l hl (by omega) (by omega),
          if_neg (by omega)]
        omega

/-- Witness for `carousel_cycle` at `i = 1`, `l = 3`. -/
theorem carousel_cycle_witness :
    nextIndex (prevIndex 1 3) 3 = 1 ∧ prevIndex 1 0 = 0 := by
  have h := carousel_cycle 1 3
  exact ⟨(h.1 (by decide) (by decide) (by decide)).2.2.1, h.2.1⟩

lemma clampIndex_lt (i len : Nat) (h : 0 < len) : clampIndex i len < len := by
  unfold clampIndex
  rw [if_neg (by omega)]
  omega

lemma selectedItem_mem {α : Type} (l : List α) (i : Nat) (h : i < l.length) :
    ∃ x, selectedItem l i = some x ∧ x ∈ l := by
  unfold selectedItem
  rw [if_pos (by omega)]
  refine ⟨l.get ⟨i, h⟩, List.get?_eq_get h, List.get_mem l i h⟩

/-- Claim C10: after `refreshAll`, each carousel stores the fetched list and
its index equals 0 when the new list is empty and
`min (previous index) (new length - 1)` otherwise; hence the index is a
valid position and the derived selected item is an element of the list
whenever the list is non-empty. -/
theorem refreshAll_index_valid (s : CarouselUI) (nt nb : List WItem)
    (nr : List RefPhoto) :
    ((refreshAll s nt nb nr).tops = nt ∧ (refreshAll s nt nb nr).bottoms = nb ∧
      (refreshAll s nt nb nr).refs = nr) ∧
    ((nt.length = 0 → (refreshAll s nt nb nr).topIndex = 0) ∧
      (0 < nt.length →
        (refreshAll s nt nb nr).topIndex = min s.topIndex (nt.length - 1) ∧
        (refreshAll s nt nb nr).topIndex < nt.length ∧
        ∃ x, selectedItem nt (refreshAll s nt nb nr).topIndex = some x ∧
          x ∈ nt)) ∧
    ((nb.length = 0 → (refreshAll s nt nb nr).bottomIndex = 0) ∧
      (0 < nb.length →
        (refreshAll s nt nb nr).bottomIndex = min s.bottomIndex (nb.length - 1) ∧
        (refreshAll s nt nb nr).bottomIndex < nb.length ∧
        ∃ x, selectedItem nb (refreshAll s nt nb nr).bottomIndex = some x ∧
          x ∈ nb)) ∧
    ((nr.length = 0 → (refreshAll s nt nb nr).refIndex = 0) ∧
      (0 < nr.length →
        (refreshAll s nt nb nr).refIndex = min s.refIndex (nr.length - 1) ∧
        (refreshAll s nt nb nr).refIndex < nr.length ∧
        ∃ x, selectedItem nr (refreshAll s nt nb nr).refIndex = some x ∧
          x ∈ nr)) := by
  refine ⟨⟨rfl, rfl, rfl⟩, ⟨?_, ?_⟩, ⟨?_, ?_⟩, ⟨?_, ?_⟩⟩
  · intro h
    simp only [refreshAll, clampIndex, h, if_pos]
  · intro h
    have hv : (refreshAll s nt nb nr).topIndex = min s.topIndex (nt.length - 1) := by
      simp only [refreshAll, clampIndex, if_neg (by omega : ¬nt.length = 0)]
    have hlt : (refreshAll s nt nb nr).topIndex < nt.length := clampIndex_lt _ _ h
    exact ⟨hv, hlt, selectedItem_mem nt _ hlt⟩
  · intro h
    simp only [refreshAll, clampIndex, h, if_pos]
  · intro h
    have hv : (refreshAll s nt nb nr).bottomIndex = min s.bottomIndex (nb.length - 1) := by
      simp only [refreshAll, clampIndex, if_neg (by omega : ¬nb.length = 0)]
    have hlt : (refreshAll s nt nb nr).bottomIndex < nb.length := clampIndex_lt _ _ h
    exact ⟨hv, hlt, selectedItem_mem nb _ hlt⟩
  · intro h
    simp only [refreshAll, clampIndex, h, if_pos]
  · intro h
    have hv : (refreshAll s nt nb nr).refIndex = min s.refIndex (nr.length - 1) := by
      simp only [refreshAll, clampIndex, if_neg (by omega : ¬nr.length = 0)]
    have hlt : (refreshAll s nt nb nr).refIndex < nr.length := clampIndex_lt _ _ h
    exact ⟨hv, hlt, selectedItem_mem nr _ hlt⟩

/-- A sample top used in concrete evaluations. -/
def sampleTop : WItem := ⟨"t1", "t1.png", ["summer"]⟩

/-- A sample bottom used in concrete evaluations. -/
def sampleBottom : WItem := ⟨"b1", "b1.png", ["wool"]⟩

/-- A sample reference photo used in concrete evaluations. -/
def sampleRef : RefPhoto := ⟨"r1", "me.png"⟩

/-- A sample page state with stale carousel indices. -/
def sampleUI : CarouselUI :=
  { tops := [], bottoms := [], refs := [], topIndex := 5, bottomIndex := 7,
    refIndex := 2 }

/-- Witness for `refreshAll_index_valid`: refreshing with one-element lists
clamps the stale indices back into range. -/
theorem refreshAll_index_valid_witness :
    (refreshAll sampleUI [sampleTop] [sampleBottom] [sampleRef]).topIndex <
        ([sampleTop] : List WItem).length ∧
      (refreshAll sampleUI [sampleTop] [sampleBottom]
          [sampleRef]).bottomIndex = 0 := by
  have h := refreshAll_index_valid sampleUI [sampleTop] [sampleBottom] [sampleRef]
  exact ⟨(h.2.1.2 (by decide)).2.1, (h.2.2.1.2 (by decide)).1.trans (by decide)⟩

/-- Claim C8: whenever a reference photo is selected, the request body built
by `handleGenerate` carries that reference's id together with the selected
top id, bottom id and theme. -/
theorem handleGenerate_forwards_ref (top bottom : WItem) (theme : String)
    (refs : List RefPhoto) (refIndex : Nat) (r : RefPhoto)
    (h : selectedItem refs refIndex = some r) :
    (handleGenerateBody top bottom theme (selectedItem refs refIndex)).ref_id =
        some r.id ∧
      (handleGenerateBody top bottom theme (selectedItem refs refIndex)).top_id =
        top.id ∧
      (handleGenerateBody top bottom theme
          (selectedItem refs refIndex)).bottom_id = bottom.id ∧
      (handleGenerateBody top bottom theme (selectedItem refs refIndex)).theme =
        theme := by
  rw [h]
  exact ⟨rfl, rfl, rfl, rfl⟩

/-- Witness for `handleGenerate_forwards_ref` on a concrete selection. -/
theorem handleGenerate_forwards_ref_witness :
    (handleGenerateBody sampleTop sampleBottom "streetwear"
        (selectedItem [sampleRef] 0)).ref_id = some "r1" := by
  have h := handleGenerate_forwards_ref sampleTop sampleBottom "streetwear"
    [sampleRef] 0 sampleRef (by decide)
  exact h.1

/-! ### Part 2: backend core, modelled from the specification

The FastAPI backend (`backend/main.py`) is not part of the provided source
tree; only the frontend that calls it is. The definitions below therefore
model the backend from the specification's words (sections 3, 4.1 - 4.4). -/

/-- Modelled from the spec: the missing backend's theme normalization.
`normalized_theme` is the theme string trimmed and case-folded. Character
lists are used so that the definitions evaluate inside the kernel. -/
def trimChars (cs : List Char) : List Char :=
  ((cs.dropWhile Char.isWhitespace).reverse.dropWhile Char.isWhitespace).reverse

/-- Modelled from the spec: the missing backend's `normalized_theme`, the
theme trimmed and case-folded. -/
def normalizeTheme (theme : String) : String :=
  String.mk ((trimChars theme.data).map Char.toLower)

/-- Modelled from the spec: the missing backend's `GenerationFingerprint`, a
value deterministically computed from
`(reference_id | none, top_id, bottom_id, normalized_theme)`. The stable
hash is modelled by the normalized tuple itself. -/
structure Fingerprint where
  ref : Option String
  top : String
  bottom : String
  themeNorm : String
deriving DecidableEq

/-- Modelled from the spec: the missing backend's `Fingerprint` operation, a
pure function of the selection tuple. -/
def fingerprint (refId : Option String) (topId bottomId theme : String) :
    Fingerprint :=
  ⟨refId, topId, bottomId, normalizeTheme theme⟩

/-- Modelled from the spec: a cache entry's status, `success` or
`fallback`. -/
inductive GenStatus where
  | success
  | fallback
deriving DecidableEq

/-- Modelled from the spec: the missing backend's `CacheEntry`
(`fingerprint` is the key, so only `artifact_ref` and `status` are
stored). -/
structure CacheEntry where
  artifact_ref : String
  status : GenStatus
deriving DecidableEq

/-- Modelled from the spec: the missing backend's cache index, the mapping
fingerprint to at most one `CacheEntry`. -/
def CacheIndex : Type := Fingerprint → Option CacheEntry

/-- Modelled from the spec: the missing backend's `Put(fingerprint,
artifact_ref, status)`: if an existing `success` entry is present and the
new status is `fallback`, the write is a no-op and the existing entry is
returned instead; otherwise the entry is written and returned. -/
def Put (idx : CacheIndex) (f : Fingerprint) (art : String)
    (st : GenStatus) : CacheIndex × CacheEntry :=
  match idx f with
  | some e =>
    if e.status = GenStatus.success ∧ st = GenStatus.fallback then (idx, e)
    else (Function.update idx f (some ⟨art, st⟩), ⟨art, st⟩)
  | none => (Function.update idx f (some ⟨art, st⟩), ⟨art, st⟩)

/-- Folding a sequence of `Put` operations over an index. -/
def runPuts (idx : CacheIndex) (ops : List (Fingerprint × String × GenStatus)) :
    CacheIndex :=
  ops.foldl (fun m op => (Put m op.1 op.2.1 op.2.2).1) idx

/-- Claim C4: the fingerprint is deterministic: equal reference id (or both
none), equal top id, equal bottom id and themes equal after trimming and
case-folding yield equal fingerprints; in particular "Streetwear " and
"streetwear" produce the same fingerprint. -/
theorem fingerprint_deterministic (r : Option String) (t b th1 th2 : String)
    (h : normalizeTheme th1 = normalizeTheme th2) :
    fingerprint r t b th1 = fingerprint r t b th2 ∧
      fingerprint none "t1" "b1" "Streetwear " =
        fingerprint none "t1" "b1" "streetwear" := by
  constructor
  · unfold fingerprint
    rw [h]
  · decide

/-- Witness for `fingerprint_deterministic`: "Cozy Winter" and
" cozy winter" normalize alike, so their fingerprints agree. -/
theorem fingerprint_deterministic_witness :
    fingerprint (some "r1") "t1" "b1" "Cozy Winter" =
      fingerprint (some "r1") "t1" "b1" " cozy winter" := by
  exact (fingerprint_deterministic (some "r1") "t1" "b1" "Cozy Winter"
    " cozy winter" (by decide)).1

lemma put_preserves_success (idx : CacheIndex) (f g : Fingerprint)
    (art : String) (st : GenStatus) (e : CacheEntry) (h : idx f = some e)
    (hs : e.status = GenStatus.success) :
    ∃ e2, (Put idx g art st).1 f = some e2 ∧ e2.status = GenStatus.success := by
  by_cases hg : g = f
  · subst hg
    simp only [Put, h]
    by_cases hst : st = GenStatus.fallback
    · rw [if_pos ⟨hs, hst⟩]
      exact ⟨e, h, hs⟩
    · rw [if_neg (fun hc => hst hc.2)]
      refine ⟨⟨art, st⟩, ?_, ?_⟩
      · exact Function.update_same g _ idx
      · cases st
        · rfl
        · exact absurd rfl hst
  · have hne : f ≠ g := fun hc => hg hc.symm
    cases hgv : idx g with
    | none =>
      simp only [Put, hgv]
      exact ⟨e, (Function.update_noteq hne _ idx).trans h, hs⟩
    | some e2 =>
      simp only [Put, hgv]
      by_cases hcond : e2.status = GenStatus.success ∧ st = GenStatus.fallback
      · rw [if_pos hcond]
        exact ⟨e, h, hs⟩
      · rw [if_neg hcond]
        exact ⟨e, (Function.update_noteq hne _ idx).trans h, hs⟩

lemma runPuts_preserves_success (ops : List (Fingerprint × String × GenStatus)) :
    ∀ (idx : CacheIndex) (f : Fingerprint) (e : CacheEntry),
      idx f = some e → e.status = GenStatus.success →
      ∃ e2, runPuts idx ops f = some e2 ∧ e2.status = GenStatus.success := by
  induction ops with
  | nil => exact fun idx f e h hs => ⟨e, h, hs⟩
  | cons op rest ih =>
    intro idx f e h hs
    obtain ⟨e2, h2, hs2⟩ := put_preserves_success idx f op.1 op.2.1 op.2.2 e h hs
    exact ih (Put idx op.1 op.2.1 op.2.2).1 f e2 h2 hs2

/-- Claim C2: `Put` enforces the non-clobber rule: a `fallback` write over an
existing `success` entry is a no-op returning the existing entry; a
`success` write supersedes an existing `fallback` entry; and after any
sequence of `Put` operations a fingerprint that once held a `success`
entry still holds a `success` entry. -/
theorem put_success_nonclobber (idx : CacheIndex) (f : Fingerprint)
    (a1 a2 : String) (e : CacheEntry)
    (ops : List (Fingerprint × String × GenStatus)) :
    (idx f = some e → e.status = GenStatus.success →
      Put idx f a1 GenStatus.fallback = (idx, e)) ∧
    (idx f = some e → e.status = GenStatus.fallback →
      (Put idx f a2 GenStatus.success).1 f = some ⟨a2, GenStatus.success⟩ ∧
        (Put idx f a2 GenStatus.success).2 = ⟨a2, GenStatus.success⟩) ∧
    (idx f = some e → e.status = GenStatus.success →
      ∃ e2, runPuts idx ops f = some e2 ∧ e2.status = GenStatus.success) := by
  refine ⟨?_, ?_, ?_⟩
  · intro h hs
    simp only [Put, h]
    rw [if_pos (show _ ∧ _ from ⟨hs, by trivial⟩)]
  · intro h hs
    simp only [Put, h]
    rw [if_neg (by rintro ⟨-, hx⟩; exact absurd hx (by decide))]
    exact ⟨Function.update_same f _ idx, rfl⟩
  · intro h hs
    exact runPuts_preserves_success ops idx f e h hs

/-- A sample fingerprint for concrete evaluations. -/
def sampleFp : Fingerprint := fingerprint none "t1" "b1" "streetwear"

/-- A cache index holding a single `success` entry at `sampleFp`. -/
def sampleIdx : CacheIndex :=
  Function.update (fun _ => none) sampleFp (some ⟨"outputs/one.png", GenStatus.success⟩)

/-- Witness for `put_success_nonclobber`: on a concrete index a `fallback`
write leaves the `success` entry in place, and a run of further puts keeps
its status `success`. -/
theorem put_success_nonclobber_witness :
    (Put sampleIdx sampleFp "outputs/two.png" GenStatus.fallback).2 =
        ⟨"outputs/one.png", GenStatus.success⟩ ∧
      ∃ e2, runPuts sampleIdx
          [(sampleFp, "outputs/two.png", GenStatus.fallback)] sampleFp =
            some e2 ∧ e2.status = GenStatus.success := by
  have h := put_success_nonclobber sampleIdx sampleFp "outputs/two.png"
    "unused" ⟨"outputs/one.png", GenStatus.success⟩
    [(sampleFp, "outputs/two.png", GenStatus.fallback)]
  constructor
  · have h1 := h.1 (by decide) rfl
    exact (congrArg Prod.snd h1)
  · exact h.2.2 (by decide) rfl

/-- Modelled from the spec: a wardrobe item kind, `top` or `bottom`. -/
inductive Kind where
  | top
  | bottom
deriving DecidableEq

/-- Modelled from the spec: the missing backend's `WardrobeItem` metadata
(file bytes and timestamps are irrelevant to the claims). -/
structure WardrobeItem where
  id : String
  kind : Kind
  tags : List String
deriving DecidableEq

/-- Modelled from the spec: the missing backend's durable state: the
wardrobe store, the cache index, the artifact store and a count of
provider invocations (for the call-counting provider stub). -/
structure GenState where
  items : List WardrobeItem
  cache : CacheIndex
  artifacts : List String
  providerCalls : Nat

/-- Modelled from the spec: the error surfaced when a selected id does not
resolve to a live item of the right kind. -/
inductive GenError where
  | invalidSelection
deriving DecidableEq

/-- Modelled from the spec: the error surfaced by a delete of an unknown
id. -/
inductive DelError where
  | notFound
deriving DecidableEq

/-- Modelled from the spec: the `Generate` response
`{artifact_ref, status, cached}`. -/
structure GenResult where
  artifact_ref : String
  status : GenStatus
  cached : Bool
deriving DecidableEq

/-- Modelled from the spec: resolving an id to a live wardrobe item of the
requested kind. -/
def findItem (items : List WardrobeItem) (id : String) (k : Kind) :
    Option WardrobeItem :=
  items.find? (fun it => it.id == id && it.kind == k)

/-- Modelled from the spec: artifact paths are derived from the fingerprint,
with a distinct path for fallback images. -/
def artifactPath (f : Fingerprint) (st : GenStatus) : String :=
  match st with
  | GenStatus.success => "outputs/" ++ f.top ++ "_" ++ f.bottom
  | GenStatus.fallback => "outputs/fb_" ++ f.top ++ "_" ++ f.bottom

/-- Modelled from the spec: the missing backend's `Generate` orchestration
(sequential core; the lock protocol is modelled separately): validate the
selection, compute the fingerprint, return immediately on a cache hit,
otherwise invoke the provider, falling back to a placeholder artifact on
provider failure, and write through with `Put`. -/
def Generate (provider : Fingerprint → Option String) (s : GenState)
    (refId : Option String) (topId bottomId theme : String) :
    Except GenError GenResult × GenState :=
  match findItem s.items topId Kind.top,
      findItem s.items bottomId Kind.bottom with
  | some _, some _ =>
    let f := fingerprint refId topId bottomId theme
    match s.cache f with
    | some e => (Except.ok ⟨e.artifact_ref, e.status, true⟩, s)
    | none =>
      match provider f with
      | some _out =>
        let art := artifactPath f GenStatus.success
        let pr := Put s.cache f art GenStatus.success
        (Except.ok ⟨pr.2.artifact_ref, pr.2.status, false⟩,
          { s with
            cache := pr.1
            artifacts := s.artifacts ++ [art]
            providerCalls := s.providerCalls + 1 })
      | none =>
        let art := artifactPath f GenStatus.fallback
        let pr := Put s.cache f art GenStatus.fallback
        (Except.ok ⟨pr.2.artifact_ref, pr.2.status, false⟩,
          { s with
            cache := pr.1
            artifacts := s.artifacts ++ [art]
            providerCalls := s.providerCalls + 1 })
  | _, _ => (Except.error GenError.invalidSelection, s)

/-- Modelled from the spec: the missing backend's `DeleteItem`: removes the
metadata entry (and file) for a known id, fails with `NotFound` otherwise,
and never touches the cache index or the artifact store. -/
def DeleteItem (s : GenState) (id : String) : Except DelError Unit × GenState :=
  if s.items.any (fun it => it.id == id) then
    (Except.ok (), { s with items := s.items.filter (fun it => it.id != id) })
  else (Except.error DelError.notFound, s)

lemma generate_error_of_none (provider : Fingerprint → Option String)
    (s : GenState) (refId : Option String) (topId bottomId theme : String)
    (h : findItem s.items topId Kind.top = none ∨
      findItem s.items bottomId Kind.bottom = none) :
    Generate provider s refId topId bottomId theme =
      (Except.error GenError.invalidSelection, s) := by
  cases hT : findItem s.items topId Kind.top with
  | none =>
    cases hB : findItem s.items bottomId Kind.bottom with
    | none => simp only [Generate, hT, hB]
    | some itB => simp only [Generate, hT, hB]
  | some itT =>
    cases hB : findItem s.items bottomId Kind.bottom with
    | none => simp only [Generate, hT, hB]
    | some itB =>
      rcases h with h | h
      · rw [h] at hT
        exact absurd hT (by simp)
      · rw [h] at hB
        exact absurd hB (by simp)

/-- Claim C5: when the top id or the bottom id does not resolve to a live
item of the correct kind, `Generate` fails with `InvalidSelection`, leaves
the state untouched, performs no provider call and writes nothing to the
cache index. -/
theorem generate_invalid_selection (provider : Fingerprint → Option String)
    (s : GenState) (refId : Option String) (topId bottomId theme : String)
    (h : findItem s.items topId Kind.top = none ∨
      findItem s.items bottomId Kind.bottom = none) :
    Generate provider s refId topId bottomId theme =
        (Except.error GenError.invalidSelection, s) ∧
      (Generate provider s refId topId bottomId theme).2.providerCalls =
        s.providerCalls ∧
      (Generate provider s refId topId bottomId theme).2.cache = s.cache := by
  have hmain := generate_error_of_none provider s refId topId bottomId theme h
  exact ⟨hmain, by rw [hmain], by rw [hmain]⟩

/-- A sample backend state: one top `t1`, one bottom `b1`, empty cache. -/
def sampleState : GenState :=
  { items := [⟨"t1", Kind.top, ["summer"]⟩, ⟨"b1", Kind.bottom, ["wool"]⟩]
    cache := fun _ => none
    artifacts := []
    providerCalls := 0 }

/-- Witness for `generate_invalid_selection`: generating with the unknown
top id "missing" fails and leaves the state unchanged. -/
theorem generate_invalid_selection_witness :
    Generate (fun _ => some "img") sampleState none "missing" "b1" "x" =
      (Except.error GenError.invalidSelection, sampleState) := by
  exact (generate_invalid_selection (fun _ => some "img") sampleState none
    "missing" "b1" "x" (Or.inl (by decide))).1

/-- Claim C3: for a valid selection whose fingerprint is not yet cached, the
first `Generate` returns `cached = false` and bumps the provider call
count, writes a cache entry, and the second identical call returns
`cached = true` with the stored status, leaving the state (in particular
the provider call count) untouched. -/
theorem generate_second_call_cached (provider : Fingerprint → Option String)
    (s : GenState) (refId : Option String) (topId bottomId theme : String)
    (itT itB : WardrobeItem)
    (hT : findItem s.items topId Kind.top = some itT)
    (hB : findItem s.items bottomId Kind.bottom = some itB)
    (hmiss : s.cache (fingerprint refId topId bottomId theme) = none) :
    ∃ e : CacheEntry,
      (Generate provider s refId topId bottomId theme).1 =
        Except.ok ⟨e.artifact_ref, e.status, false⟩ ∧
      (Generate provider s refId topId bottomId theme).2.cache
        (fingerprint refId topId bottomId theme) = some e ∧
      (Generate provider s refId topId bottomId theme).2.providerCalls =
        s.providerCalls + 1 ∧
      Generate provider (Generate provider s refId topId bottomId theme).2
          refId topId bottomId theme =
        (Except.ok ⟨e.artifact_ref, e.status, true⟩,
          (Generate provider s refId topId bottomId theme).2) ∧
      (Generate provider (Generate provider s refId topId bottomId theme).2
          refId topId bottomId theme).2.providerCalls =
        (Generate provider s refId topId bottomId theme).2.providerCalls := by
  cases hp : provider (fingerprint refId topId bottomId theme) with
  | some out =>
    refine ⟨⟨artifactPath (fingerprint refId topId bottomId theme)
      GenStatus.success, GenStatus.success⟩, ?_, ?_, ?_, ?_, ?_⟩
    · simp only [Generate, hT, hB, hmiss, hp, Put]
    · simp only [Generate, hT, hB, hmiss, hp, Put]
      exact Function.update_same _ _ _
    · simp only [Generate, hT, hB, hmiss, hp, Put]
    · simp only [Generate, hT, hB, hmiss, hp, Put, Function.update_same]
    · simp only [Generate, hT, hB, hmiss, hp, Put, Function.update_same]
  | none =>
    refine ⟨⟨artifactPath (fingerprint refId topId bottomId theme)
      GenStatus.fallback, GenStatus.fallback⟩, ?_, ?_, ?_, ?_, ?_⟩
    · simp only [Generate, hT, hB, hmiss, hp, Put]
    · simp only [Generate, hT, hB, hmiss, hp, Put]
      exact Function.update_same _ _ _
    · simp only [Generate, hT, hB, hmiss, hp, Put]
    · simp only [Generate, hT, hB, hmiss, hp, Put, Function.update_same]
    · simp only [Generate, hT, hB, hmiss, hp, Put, Function.update_same]

/-- Witness for `generate_second_call_cached` on the sample state with an
always-succeeding provider stub. -/
theorem generate_second_call_cached_witness :
    ∃ e : CacheEntry,
      (Generate (fun _ => some "img") sampleState none "t1" "b1" "x").1 =
        Except.ok ⟨e.artifact_ref, e.status, false⟩ ∧
      (Generate (fun _ => some "img") sampleState none "t1" "b1" "x").2.cache
        (fingerprint none "t1" "b1" "x") = some e ∧
      (Generate (fun _ => some "img") sampleState none "t1" "b1"
          "x").2.providerCalls = sampleState.providerCalls + 1 ∧
      Generate (fun _ => some "img")
          (Generate (fun _ => some "img") sampleState none "t1" "b1" "x").2
          none "t1" "b1" "x" =
        (Except.ok ⟨e.artifact_ref, e.status, true⟩,
          (Generate (fun _ => some "img") sampleState none "t1" "b1" "x").2) ∧
      (Generate (fun _ => some "img")
          (Generate (fun _ => some "img") sampleState none "t1" "b1"
            "x").2 none "t1" "b1" "x").2.providerCalls =
        (Generate (fun _ => some "img") sampleState none "t1" "b1"
          "x").2.providerCalls := by
  exact generate_second_call_cached (fun _ => some "img") sampleState none
    "t1" "b1" "x" ⟨"t1", Kind.top, ["summer"]⟩ ⟨"b1", Kind.bottom, ["wool"]⟩
    (by decide) (by decide) rfl

lemma findItem_filtered_out (items : List WardrobeItem) (id : String)
    (k : Kind) :
    findItem (items.filter (fun it => it.id != id)) id k = none := by
  unfold findItem
  apply List.find?_eq_none.mpr
  intro it hit
  have hmem := List.mem_filter.mp hit
  have hne : (it.id != id) = true := hmem.2
  simp only [bne_iff_ne, ne_eq] at hne
  simp only [Bool.and_eq_true, beq_iff_eq]
  rintro ⟨h1, -⟩
  exact hne h1

lemma findItem_deleted (s : GenState) (id : String) (k : Kind) :
    findItem (DeleteItem s id).2.items id k = none := by
  unfold DeleteItem
  by_cases hany : s.items.any (fun it => it.id == id)
  · rw [if_pos hany]
    exact findItem_filtered_out s.items id k
  · rw [if_neg hany]
    unfold findItem
    apply List.find?_eq_none.mpr
    intro it hit
    simp only [Bool.and_eq_true, beq_iff_eq]
    rintro ⟨h1, -⟩
    apply hany
    exact List.any_eq_true.mpr ⟨it, hit, by simp [h1]⟩

/-- Claim C7: `DeleteItem` leaves the cache index and the artifact store
unchanged — every stored cache entry stays present — and a fresh
`Generate` naming the deleted id (as top or bottom) fails with
`InvalidSelection`. -/
theorem deleteItem_frame (s : GenState) (id : String) :
    (DeleteItem s id).2.cache = s.cache ∧
    (DeleteItem s id).2.artifacts = s.artifacts ∧
    (∀ f e, s.cache f = some e → (DeleteItem s id).2.cache f = some e) ∧
    (∀ provider refId bottomId theme,
      Generate provider (DeleteItem s id).2 refId id bottomId theme =
        (Except.error GenError.invalidSelection, (DeleteItem s id).2)) ∧
    (∀ provider refId topId theme,
      Generate provider (DeleteItem s id).2 refId topId id theme =
        (Except.error GenError.invalidSelection, (DeleteItem s id).2)) := by
  have hcache : (DeleteItem s id).2.cache = s.cache := by
    unfold DeleteItem
    by_cases hany : s.items.any (fun it => it.id == id)
    · rw [if_pos hany]
    · rw [if_neg hany]
  have hart : (DeleteItem s id).2.artifacts = s.artifacts := by
    unfold DeleteItem
    by_cases hany : s.items.any (fun it => it.id == id)
    · rw [if_pos hany]
    · rw [if_neg hany]
  refine ⟨hcache, hart, ?_, ?_, ?_⟩
  · intro f e h
    rw [hcache]
    exact h
  · intro provider refId bottomId theme
    exact generate_error_of_none provider (DeleteItem s id).2 refId id
      bottomId theme (Or.inl (findItem_deleted s id Kind.top))
  · intro provider refId topId theme
    exact generate_error_of_none provider (DeleteItem s id).2 refId topId
      id theme (Or.inr (findItem_deleted s id Kind.bottom))

/-- A backend state holding a cached success entry for the selection
`(none, t1, b1, streetwear)` alongside the live items `t1` and `b1`. -/
def sampleStateCached : GenState :=
  { items := [⟨"t1", Kind.top, ["summer"]⟩, ⟨"b1", Kind.bottom, ["wool"]⟩]
    cache := sampleIdx
    artifacts := ["outputs/one.png"]
    providerCalls := 1 }

/-- Witness for `deleteItem_frame`: deleting `t1` keeps the cached entry for
the fingerprint derived from `t1` and makes a fresh `Generate` naming `t1`
fail. -/
theorem deleteItem_frame_witness :
    (DeleteItem sampleStateCached "t1").2.cache sampleFp =
        some ⟨"outputs/one.png", GenStatus.success⟩ ∧
      (Generate (fun _ => some "img") (DeleteItem sampleStateCached "t1").2
          none "t1" "b1" "streetwear").1 =
        Except.error GenError.invalidSelection := by
  have h := deleteItem_frame sampleStateCached "t1"
  constructor
  · exact h.2.2.1 sampleFp ⟨"outputs/one.png", GenStatus.success⟩ (by decide)
  · rw [h.2.2.2.1 (fun _ => some "img") none "b1" "streetwear"]

/-- Modelled from the spec: tokenize the normalized theme into its words
(whitespace-separated, empty words dropped). -/
def themeTokens (theme : String) : List String :=
  (((normalizeTheme theme).data.splitOnP (fun c => c.isWhitespace)).filter
    (fun w => !w.isEmpty)).map (fun w => String.mk w)

/-- Modelled from the spec: an item's score is the size of the intersection
between its tag set and the theme token set. -/
def tagScore (tokens : List String) (it : WardrobeItem) : Nat :=
  ((it.tags.dedup).filter (fun t => tokens.contains t)).length

/-- Modelled from the spec: fold over the remaining candidates keeping the
better-scoring item, replacing only on a strictly larger score so that
ties keep the earliest item. -/
def bestOf {α : Type} (score : α → Nat) (x : α) (xs : List α) : α :=
  xs.foldl (fun b y => if score b < score y then y else b) x

/-- Modelled from the spec: the best-scoring candidate of a list, `none`
when the list is empty. -/
def pickBest {α : Type} (score : α → Nat) : List α → Option α
  | [] => none
  | x :: xs => some (bestOf score x xs)

/-- Modelled from the spec: the recommendation failure when a kind has no
items. -/
inductive PickError where
  | noCandidates
deriving DecidableEq

/-- Modelled from the spec: the `AutoPick` response `{top_id, bottom_id}`. -/
structure PickResult where
  top_id : String
  bottom_id : String
deriving DecidableEq

/-- Modelled from the spec: the missing backend's `AutoPick(theme, tops,
bottoms)`: independently pick the best-scoring top and bottom by
tag/token overlap, failing only when a kind has zero items. -/
def AutoPick (theme : String) (tops bottoms : List WardrobeItem) :
    Except PickError PickResult :=
  match pickBest (tagScore (themeTokens theme)) tops,
      pickBest (tagScore (themeTokens theme)) bottoms with
  | some t, some b => Except.ok ⟨t.id, b.id⟩
  | _, _ => Except.error PickError.noCandidates

lemma bestOf_spec {α : Type} (score : α → Nat) (x : α) (xs : List α) :
    ∃ i, ∃ hi : i < (x :: xs).length,
      bestOf score x xs = (x :: xs).get ⟨i, hi⟩ ∧
      (∀ y ∈ x :: xs, score y ≤ score (bestOf score x xs)) ∧
      (∀ y ∈ (x :: xs).take i, score y < score (bestOf score x xs)) := by
  induction xs generalizing x with
  | nil =>
    refine ⟨0, by simp, rfl, ?_, ?_⟩
    · intro y hy
      rw [List.mem_singleton.mp hy]
      exact le_refl _
    · intro y hy
      simp at hy
  | cons z zs ih =>
    by_cases hxz : score x < score z
    · have hstep : bestOf score x (z :: zs) = bestOf score z zs := by
        simp only [bestOf, List.foldl_cons, if_pos hxz]
      obtain ⟨i, hi, heq, hmax, hlt⟩ := ih z
      have hzle : score z ≤ score (bestOf score z zs) :=
        hmax z (List.mem_cons_self z zs)
      refine ⟨i + 1, by simpa using hi, ?_, ?_, ?_⟩
      · rw [hstep, heq]
        exact rfl
      · intro y hy
        rw [hstep]
        rcases List.mem_cons.mp hy with h | h
        · subst h
          omega
        · exact hmax y h
      · intro y hy
        rw [hstep]
        rw [List.take_succ_cons] at hy
        rcases List.mem_cons.mp hy with h | h
        · subst h
          omega
        · exact hlt y h
    · have hstep : bestOf score x (z :: zs) = bestOf score x zs := by
        simp only [bestOf, List.foldl_cons, if_neg hxz]
      obtain ⟨i, hi, heq, hmax, hlt⟩ := ih x
      have hxle : score x ≤ score (bestOf score x zs) :=
        hmax x (List.mem_cons_self x zs)
      cases i with
      | zero =>
        refine ⟨0, by simp, ?_, ?_, ?_⟩
        · rw [hstep, heq]
          exact rfl
        · intro y hy
          rw [hstep]
          rcases List.mem_cons.mp hy with h | h
          · subst h
            exact hxle
          rcases List.mem_cons.mp h with h2 | h2
          · subst h2
            have hx0 : bestOf score x zs = x := heq
            rw [hx0]
            omega
          · exact hmax y (List.mem_cons.mpr (Or.inr h2))
        · intro y hy
          simp at hy
      | succ k =>
        have hk : k + 1 < (x :: zs).length := hi
        refine ⟨k + 2, by simpa using hk, ?_, ?_, ?_⟩
        · rw [hstep, heq]
          exact rfl
        · intro y hy
          rw [hstep]
          rcases List.mem_cons.mp hy with h | h
          · subst h
            exact hxle
          rcases List.mem_cons.mp h with h2 | h2
          · subst h2
            omega
          · exact hmax y (List.mem_cons.mpr (Or.inr h2))
        · intro y hy
          rw [hstep]
          have hxlt : score x < score (bestOf score x zs) := by
            apply hlt
            rw [List.take_succ_cons]
            exact List.mem_cons_self x (zs.take k)
          rw [List.take_succ_cons] at hy
          rcases List.mem_cons.mp hy with h | h
          · subst h
            exact hxlt
          rw [List.take_succ_cons] at h
          rcases List.mem_cons.mp h with h2 | h2
          · subst h2
            omega
          · apply hlt
            rw [List.take_succ_cons]
            exact List.mem_cons.mpr (Or.inr h2)

/-- Claim C6: for non-empty tops and bottoms, `AutoPick` never fails and
returns, for each kind, the item with the largest tag/token overlap
(ties broken by lowest original index: every earlier item scores strictly
less); when no item of a kind has a nonzero score the index-0 item is
returned; and on the spec's concrete wardrobe with theme "cozy winter"
the result is top `t2`, bottom `b1`. -/
theorem autoPick_best (theme : String) (tops bottoms : List WardrobeItem)
    (ht : tops ≠ []) (hb : bottoms ≠ []) :
    ∃ t b,
      AutoPick theme tops bottoms = Except.ok ⟨t.id, b.id⟩ ∧
      (∃ i, ∃ hi : i < tops.length, t = tops.get ⟨i, hi⟩ ∧
        (∀ y ∈ tops,
          tagScore (themeTokens theme) y ≤ tagScore (themeTokens theme) t) ∧
        (∀ y ∈ tops.take i,
          tagScore (themeTokens theme) y < tagScore (themeTokens theme) t)) ∧
      (∃ j, ∃ hj : j < bottoms.length, b = bottoms.get ⟨j, hj⟩ ∧
        (∀ y ∈ bottoms,
          tagScore (themeTokens theme) y ≤ tagScore (themeTokens theme) b) ∧
        (∀ y ∈ bottoms.take j,
          tagScore (themeTokens theme) y < tagScore (themeTokens theme) b)) ∧
      ((∀ y ∈ tops, tagScore (themeTokens theme) y = 0) →
        ∃ h0 : 0 < tops.length, t = tops.get ⟨0, h0⟩) ∧
      ((∀ y ∈ bottoms, tagScore (themeTokens theme) y = 0) →
        ∃ h0 : 0 < bottoms.length, b = bottoms.get ⟨0, h0⟩) ∧
      AutoPick "cozy winter"
        [⟨"t1", Kind.top, ["summer"]⟩, ⟨"t2", Kind.top, ["winter", "wool"]⟩]
        [⟨"b1", Kind.bottom, ["wool"]⟩] = Except.ok ⟨"t2", "b1"⟩ := by
  obtain ⟨t0, ts, rfl⟩ := List.exists_cons_of_ne_nil ht
  obtain ⟨b0, bs, rfl⟩ := List.exists_cons_of_ne_nil hb
  obtain ⟨i, hi, heqt, hmaxt, hltt⟩ :=
    bestOf_spec (tagScore (themeTokens theme)) t0 ts
  obtain ⟨j, hj, heqb, hmaxb, hltb⟩ :=
    bestOf_spec (tagScore (themeTokens theme)) b0 bs
  refine ⟨bestOf (tagScore (themeTokens theme)) t0 ts,
    bestOf (tagScore (themeTokens theme)) b0 bs, rfl,
    ⟨i, hi, heqt, hmaxt, hltt⟩, ⟨j, hj, heqb, hmaxb, hltb⟩, ?_, ?_, rfl⟩
  · intro hz
    refine ⟨by simp, ?_⟩
    cases hiz : i with
    | zero =>
      rw [heqt]
      exact congrArg (t0 :: ts).get (Fin.ext hiz)
    | succ k =>
      exfalso
      have h1 : tagScore (themeTokens theme)
          (bestOf (tagScore (themeTokens theme)) t0 ts) = 0 :=
        hz _ (heqt ▸ List.get_mem (t0 :: ts) i hi)
      have h2 : tagScore (themeTokens theme) t0 <
          tagScore (themeTokens theme)
            (bestOf (tagScore (themeTokens theme)) t0 ts) := by
        apply hltt
        rw [hiz, List.take_succ_cons]
        exact List.mem_cons_self t0 (ts.take k)
      omega
  · intro hz
    refine ⟨by simp, ?_⟩
    cases hjz : j with
    | zero =>
      rw [heqb]
      exact congrArg (b0 :: bs).get (Fin.ext hjz)
    | succ k =>
      exfalso
      have h1 : tagScore (themeTokens theme)
          (bestOf (tagScore (themeTokens theme)) b0 bs) = 0 :=
        hz _ (heqb ▸ List.get_mem (b0 :: bs) j hj)
      have h2 : tagScore (themeTokens theme) b0 <
          tagScore (themeTokens theme)
            (bestOf (tagScore (themeTokens theme)) b0 bs) := by
        apply hltb
        rw [hjz, List.take_succ_cons]
        exact List.mem_cons_self b0 (bs.take k)
      omega

/-- Witness for `autoPick_best`: on the spec's concrete wardrobe, auto-pick
returns `t2` and `b1`. -/
theorem autoPick_best_witness :
    AutoPick "cozy winter"
      [⟨"t1", Kind.top, ["summer"]⟩, ⟨"t2", Kind.top, ["winter", "wool"]⟩]
      [⟨"b1", Kind.bottom, ["wool"]⟩] = Except.ok ⟨"t2", "b1"⟩ := by
  obtain ⟨t, b, -, -, -, -, -, hconc⟩ := autoPick_best "cozy winter"
    [⟨"t1", Kind.top, ["summer"]⟩, ⟨"t2", Kind.top, ["winter", "wool"]⟩]
    [⟨"b1", Kind.bottom, ["wool"]⟩] (by simp) (by simp)
  exact hconc

/-! ### Part 3: single-flight per-fingerprint locking

An interleaving semantics for the orchestrator's lock protocol of spec
section 4.3 steps 3-7: each of `n` callers checks the cache, waits for the
fingerprint-scoped lock on a miss, re-checks the cache under the lock, and
only then invokes the provider and writes through. The provider call, the
cache write and the lock release form one atomic `finish` step; while it
is pending the lock is held, so no other interleaving is lost. -/

/-- Modelled from the spec: the control point of one `Generate` caller. -/
inductive CallerPhase (A : Type) where
  | start
  | waiting
  | working
  | done (result : A) (cached : Bool)
deriving DecidableEq

/-- Whether a caller has completed its call. -/
def isDone {A : Type} : CallerPhase A → Bool
  | CallerPhase.done _ _ => true
  | _ => false

/-- Modelled from the spec: the shared state of the orchestrator: the cache
index, the per-fingerprint lock table, a per-fingerprint provider call
count, and each caller's phase. -/
structure SFState (n : Nat) (F A : Type) where
  cache : F → Option A
  lock : F → Option (Fin n)
  callCount : F → Nat
  phase : Fin n → CallerPhase A

/-- Modelled from the spec: the initial state: empty cache, no lock held, no
provider call made, every caller about to issue its request. -/
def sfInit (n : Nat) (F A : Type) : SFState n F A :=
  { cache := fun _ => none
    lock := fun _ => none
    callCount := fun _ => 0
    phase := fun _ => CallerPhase.start }

/-- Modelled from the spec: one interleaved step of the single-flight
protocol. `fp i` is the fingerprint caller `i` requests and `provider` the
(deterministic) external provider. `checkHit`/`checkMiss` are the lock-free
initial lookup, `acquireHit` is lock acquisition followed by the re-check
hitting (lock released at once), `acquireMiss` takes the lock on a genuine
miss, and `finish` performs the provider call, the write-through and the
lock release. -/
inductive SFStep {n : Nat} {F A : Type} [DecidableEq F]
    (fp : Fin n → F) (provider : F → A) :
    SFState n F A → SFState n F A → Prop where
  | checkHit (s : SFState n F A) (i : Fin n) (a : A)
      (hp : s.phase i = CallerPhase.start)
      (hc : s.cache (fp i) = some a) :
      SFStep fp provider s
        { s with phase := Function.update s.phase i (CallerPhase.done a true) }
  | checkMiss (s : SFState n F A) (i : Fin n)
      (hp : s.phase i = CallerPhase.start)
      (hc : s.cache (fp i) = none) :
      SFStep fp provider s
        { s with phase := Function.update s.phase i CallerPhase.waiting }
  | acquireHit (s : SFState n F A) (i : Fin n) (a : A)
      (hp : s.phase i = CallerPhase.waiting)
      (hl : s.lock (fp i) = none)
      (hc : s.cache (fp i) = some a) :
      SFStep fp provider s
        { s with phase := Function.update s.phase i (CallerPhase.done a true) }
  | acquireMiss (s : SFState n F A) (i : Fin n)
      (hp : s.phase i = CallerPhase.waiting)
      (hl : s.lock (fp i) = none)
      (hc : s.cache (fp i) = none) :
      SFStep fp provider s
        { s with
          lock := Function.update s.lock (fp i) (some i)
          phase := Function.update s.phase i CallerPhase.working }
  | finish (s : SFState n F A) (i : Fin n)
      (hp : s.phase i = CallerPhase.working) :
      SFStep fp provider s
        { s with
          cache := Function.update s.cache (fp i) (some (provider (fp i)))
          lock := Function.update s.lock (fp i) none
          callCount := Function.update s.callCount (fp i)
            (s.callCount (fp i) + 1)
          phase := Function.update s.phase i
            (CallerPhase.done (provider (fp i)) false) }

/-- The protocol invariant at one fingerprint `f`: the lock is held exactly
by the caller working on `f` and only on a genuine miss, the cache can
only hold the provider's value, the provider was called exactly once iff
the cache is filled, every completed caller for `f` got the provider's
value, and a completed caller implies a filled cache. -/
structure SFInv {n : Nat} {F A : Type} (fp : Fin n → F) (provider : F → A)
    (f : F) (s : SFState n F A) : Prop where
  lockOwner : ∀ i, fp i = f → s.phase i = CallerPhase.working →
    s.lock f = some i ∧ s.cache f = none
  ownerWorking : ∀ i, s.lock f = some i →
    fp i = f ∧ s.phase i = CallerPhase.working
  cacheVal : ∀ a, s.cache f = some a → a = provider f
  countEq : s.callCount f = if (s.cache f).isSome then 1 else 0
  doneVal : ∀ i a c, fp i = f → s.phase i = CallerPhase.done a c →
    a = provider f
  doneCached : (∃ i, fp i = f ∧ isDone (s.phase i) = true) →
    (s.cache f).isSome

lemma isDone_true_iff {A : Type} (p : CallerPhase A) :
    isDone p = true ↔ ∃ a c, p = CallerPhase.done a c := by
  cases p <;> simp [isDone]

lemma sfInv_phase_update {n : Nat} {F A : Type} [DecidableEq F]
    (fp : Fin n → F) (provider : F → A) (f : F) (s : SFState n F A)
    (i : Fin n) (v : CallerPhase A) (hinv : SFInv fp provider f s)
    (hvnw : v ≠ CallerPhase.working)
    (hinw : s.phase i ≠ CallerPhase.working)
    (hvdone : ∀ a c, v = CallerPhase.done a c → fp i = f →
      a = provider f ∧ (s.cache f).isSome) :
    SFInv fp provider f { s with phase := Function.update s.phase i v } := by
  refine ⟨?_, ?_, hinv.cacheVal, hinv.countEq, ?_, ?_⟩
  · intro j hfj hw
    have hw2 : Function.update s.phase i v j = CallerPhase.working := hw
    by_cases hji : j = i
    · subst hji
      rw [Function.update_same] at hw2
      exact absurd hw2 hvnw
    · rw [Function.update_noteq hji] at hw2
      exact hinv.lockOwner j hfj hw2
  · intro j hl
    have hl2 : s.lock f = some j := hl
    obtain ⟨hfj, hw⟩ := hinv.ownerWorking j hl2
    by_cases hji : j = i
    · subst hji
      exact absurd hw hinw
    · refine ⟨hfj, ?_⟩
      show Function.update s.phase i v j = CallerPhase.working
      rw [Function.update_noteq hji]
      exact hw
  · intro j a c hfj hd
    have hd2 : Function.update s.phase i v j = CallerPhase.done a c := hd
    by_cases hji : j = i
    · subst hji
      rw [Function.update_same] at hd2
      exact (hvdone a c hd2 hfj).1
    · rw [Function.update_noteq hji] at hd2
      exact hinv.doneVal j a c hfj hd2
  · rintro ⟨j, hfj, hdj⟩
    have hdj2 : isDone (Function.update s.phase i v j) = true := hdj
    by_cases hji : j = i
    · subst hji
      rw [Function.update_same] at hdj2
      obtain ⟨a, c, hac⟩ := (isDone_true_iff v).mp hdj2
      exact (hvdone a c hac hfj).2
    · rw [Function.update_noteq hji] at hdj2
      exact hinv.doneCached ⟨j, hfj, hdj2⟩

lemma sfInv_step {n : Nat} {F A : Type} [DecidableEq F] (fp : Fin n → F)
    (provider : F → A) (f : F) (s s' : SFState n F A)
    (hstep : SFStep fp provider s s') (hinv : SFInv fp provider f s) :
    SFInv fp provider f s' := by
  cases hstep with
  | checkHit i a hp hc =>
    apply sfInv_phase_update fp provider f s i (CallerPhase.done a true) hinv
    · exact fun h => nomatch h
    · rw [hp]
      exact fun h => nomatch h
    · intro b c hbc hfi
      injection hbc with h1 h2
      rw [hfi] at hc
      exact ⟨h1 ▸ hinv.cacheVal a hc, by rw [hc]; rfl⟩
  | checkMiss i hp hc =>
    apply sfInv_phase_update fp provider f s i CallerPhase.waiting hinv
    · exact fun h => nomatch h
    · rw [hp]
      exact fun h => nomatch h
    · intro b c hbc hfi
      exact nomatch hbc
  | acquireHit i a hp hl hc =>
    apply sfInv_phase_update fp provider f s i (CallerPhase.done a true) hinv
    · exact fun h => nomatch h
    · rw [hp]
      exact fun h => nomatch h
    · intro b c hbc hfi
      injection hbc with h1 h2
      rw [hfi] at hc
      exact ⟨h1 ▸ hinv.cacheVal a hc, by rw [hc]; rfl⟩
  | acquireMiss i hp hl hc =>
    refine ⟨?_, ?_, hinv.cacheVal, hinv.countEq, ?_, ?_⟩
    · intro j hfj hw
      have hw2 : Function.update s.phase i CallerPhase.working j =
          CallerPhase.working := hw
      by_cases hji : j = i
      · subst hji
        constructor
        · show Function.update s.lock (fp j) (some j) f = some j
          rw [← hfj, Function.update_same]
        · show s.cache f = none
          rw [← hfj]
          exact hc
      · rw [Function.update_noteq hji] at hw2
        obtain ⟨hlj, hcj⟩ := hinv.lockOwner j hfj hw2
        by_cases hfi : fp i = f
        · rw [hfi, hlj] at hl
          exact nomatch hl
        · constructor
          · show Function.update s.lock (fp i) (some i) f = some j
            rw [Function.update_noteq (fun h2 => hfi h2.symm)]
            exact hlj
          · exact hcj
    · intro j hl'
      have hl2 : Function.update s.lock (fp i) (some i) f = some j := hl'
      by_cases hfi : fp i = f
      · rw [hfi, Function.update_same] at hl2
        injection hl2 with hij
        subst hij
        refine ⟨hfi, ?_⟩
        show Function.update s.phase i CallerPhase.working i =
          CallerPhase.working
        rw [Function.update_same]
      · rw [Function.update_noteq (fun h2 => hfi h2.symm)] at hl2
        obtain ⟨hfj, hwj⟩ := hinv.ownerWorking j hl2
        have hji : j ≠ i := fun h2 => hfi (h2 ▸ hfj)
        refine ⟨hfj, ?_⟩
        show Function.update s.phase i CallerPhase.working j =
          CallerPhase.working
        rw [Function.update_noteq hji]
        exact hwj
    · intro j a c hfj hd
      have hd2 : Function.update s.phase i CallerPhase.working j =
          CallerPhase.done a c := hd
      by_cases hji : j = i
      · subst hji
        rw [Function.update_same] at hd2
        exact nomatch hd2
      · rw [Function.update_noteq hji] at hd2
        exact hinv.doneVal j a c hfj hd2
    · rintro ⟨j, hfj, hdj⟩
      have hdj2 : isDone (Function.update s.phase i CallerPhase.working j) =
          true := hdj
      by_cases hji : j = i
      · subst hji
        rw [Function.update_same] at hdj2
        exact nomatch hdj2
      · rw [Function.update_noteq hji] at hdj2
        exact hinv.doneCached ⟨j, hfj, hdj2⟩
  | finish i hp =>
    by_cases hfi : fp i = f
    · obtain ⟨hlok, hcnone⟩ := hinv.lockOwner i hfi hp
      refine ⟨?_, ?_, ?_, ?_, ?_, ?_⟩
      · intro j hfj hw
        have hw2 : Function.update s.phase i
            (CallerPhase.done (provider (fp i)) false) j =
            CallerPhase.working := hw
        by_cases hji : j = i
        · subst hji
          rw [Function.update_same] at hw2
          exact nomatch hw2
        · rw [Function.update_noteq hji] at hw2
          obtain ⟨hlj, -⟩ := hinv.lockOwner j hfj hw2
          rw [hlok] at hlj
          injection hlj with hij
          exact absurd hij.symm hji
      · intro j hl'
        have hl2 : Function.update s.lock (fp i) none f = some j := hl'
        rw [hfi, Function.update_same] at hl2
        exact nomatch hl2
      · intro a hca
        have hca2 : Function.update s.cache (fp i)
            (some (provider (fp i))) f = some a := hca
        rw [hfi, Function.update_same] at hca2
        injection hca2 with h2
        exact h2.symm
      · show Function.update s.callCount (fp i) (s.callCount (fp i) + 1) f =
          if (Function.update s.cache (fp i)
            (some (provider (fp i))) f).isSome then 1 else 0
        rw [hfi, Function.update_same, Function.update_same]
        have hc0 : s.callCount f = 0 := by
          rw [hinv.countEq, hcnone]
          rfl
        rw [hc0]
        simp
      · intro j a c hfj hd
        have hd2 : Function.update s.phase i
            (CallerPhase.done (provider (fp i)) false) j =
            CallerPhase.done a c := hd
        by_cases hji : j = i
        · subst hji
          rw [Function.update_same] at hd2
          injection hd2 with h1 h2
          rw [← h1, hfi]
        · rw [Function.update_noteq hji] at hd2
          exact hinv.doneVal j a c hfj hd2
      · intro _
        show (Function.update s.cache (fp i)
          (some (provider (fp i))) f).isSome = true
        rw [hfi, Function.update_same]
        rfl
    · have hfne : f ≠ fp i := fun h2 => hfi h2.symm
      refine ⟨?_, ?_, ?_, ?_, ?_, ?_⟩
      · intro j hfj hw
        have hw2 : Function.update s.phase i
            (CallerPhase.done (provider (fp i)) false) j =
            CallerPhase.working := hw
        by_cases hji : j = i
        · subst hji
          exact absurd hfj hfi
        · rw [Function.update_noteq hji] at hw2
          obtain ⟨hlj, hcj⟩ := hinv.lockOwner j hfj hw2
          constructor
          · show Function.update s.lock (fp i) none f = some j
            rw [Function.update_noteq hfne]
            exact hlj
          · show Function.update s.cache (fp i)
              (some (provider (fp i))) f = none
            rw [Function.update_noteq hfne]
            exact hcj
      · intro j hl'
        have hl2 : Function.update s.lock (fp i) none f = some j := hl'
        rw [Function.update_noteq hfne] at hl2
        obtain ⟨hfj, hwj⟩ := hinv.ownerWorking j hl2
        have hji : j ≠ i := fun h2 => hfi (h2 ▸ hfj)
        refine ⟨hfj, ?_⟩
        show Function.update s.phase i
          (CallerPhase.done (provider (fp i)) false) j = CallerPhase.working
        rw [Function.update_noteq hji]
        exact hwj
      · intro a hca
        have hca2 : Function.update s.cache (fp i)
            (some (provider (fp i))) f = some a := hca
        rw [Function.update_noteq hfne] at hca2
        exact hinv.cacheVal a hca2
      · show Function.update s.callCount (fp i) (s.callCount (fp i) + 1) f =
          if (Function.update s.cache (fp i)
            (some (provider (fp i))) f).isSome then 1 else 0
        rw [Function.update_noteq hfne, Function.update_noteq hfne]
        exact hinv.countEq
      · intro j a c hfj hd
        have hd2 : Function.update s.phase i
            (CallerPhase.done (provider (fp i)) false) j =
            CallerPhase.done a c := hd
        by_cases hji : j = i
        · subst hji
          exact absurd hfj hfi
        · rw [Function.update_noteq hji] at hd2
          exact hinv.doneVal j a c hfj hd2
      · rintro ⟨j, hfj, hdj⟩
        have hdj2 : isDone (Function.update s.phase i
            (CallerPhase.done (provider (fp i)) false) j) = true := hdj
        show (Function.update s.cache (fp i)
          (some (provider (fp i))) f).isSome = true
        rw [Function.update_noteq hfne]
        by_cases hji : j = i
        · subst hji
          exact absurd hfj hfi
        · rw [Function.update_noteq hji] at hdj2
          exact hinv.doneCached ⟨j, hfj, hdj2⟩

lemma sfInv_init {n : Nat} {F A : Type} [DecidableEq F] (fp : Fin n → F)
    (provider : F → A) (f : F) : SFInv fp provider f (sfInit n F A) := by
  refine ⟨?_, ?_, ?_, rfl, ?_, ?_⟩
  · intro j hfj hw
    exact nomatch hw
  · intro j hl
    exact nomatch hl
  · intro a hca
    exact nomatch hca
  · intro j a c hfj hd
    exact nomatch hd
  · rintro ⟨j, hfj, hdj⟩
    exact nomatch hdj

lemma sfInv_reach {n : Nat} {F A : Type} [DecidableEq F] (fp : Fin n → F)
    (provider : F → A) (f : F) (s : SFState n F A)
    (h : Relation.ReflTransGen (SFStep fp provider) (sfInit n F A) s) :
    SFInv fp provider f s := by
  induction h with
  | refl => exact sfInv_init fp provider f
  | tail hsteps hstep ih => exact sfInv_step fp provider f _ _ hstep ih

/-- Claim C1: single-flight per fingerprint. Starting from an empty cache,
in every reachable state of the interleaved protocol: (a) once all
callers are done and some caller requested fingerprint `f`, the provider
was invoked exactly once for `f` and every caller of `f` received the
provider's (single) artifact; (b) a caller that is not yet done can
always take a step unless the lock of its own fingerprint is held — and
then the holder is a working caller of that same fingerprint — so
callers for different fingerprints never block on each other. -/
theorem singleflight_correct {n : Nat} {F A : Type} [DecidableEq F]
    (fp : Fin n → F) (provider : F → A) (f : F) (s : SFState n F A)
    (hreach : Relation.ReflTransGen (SFStep fp provider) (sfInit n F A) s) :
    ((∀ i, isDone (s.phase i) = true) → (∃ i0, fp i0 = f) →
      s.callCount f = 1 ∧
      (∀ i a c, fp i = f → s.phase i = CallerPhase.done a c →
        a = provider f)) ∧
    (∀ i, isDone (s.phase i) = false →
      (∃ s', SFStep fp provider s s' ∧ s'.phase i ≠ s.phase i) ∨
      (∃ j, s.lock (fp i) = some j ∧ fp j = fp i ∧
        s.phase j = CallerPhase.working)) := by
  constructor
  · rintro hdone ⟨i0, hfi0⟩
    have hinv := sfInv_reach fp provider f s hreach
    have hsome : (s.cache f).isSome := hinv.doneCached ⟨i0, hfi0, hdone i0⟩
    constructor
    · rw [hinv.countEq, hsome]
      simp
    · intro i a c hfi hd
      exact hinv.doneVal i a c hfi hd
  · intro i hnotdone
    have hinv := sfInv_reach fp provider (fp i) s hreach
    cases hph : s.phase i with
    | start =>
      left
      cases hca : s.cache (fp i) with
      | some a =>
        refine ⟨_, SFStep.checkHit s i a hph hca, ?_⟩
        show Function.update s.phase i (CallerPhase.done a true) i ≠
          CallerPhase.start
        rw [Function.update_same]
        exact fun h => nomatch h
      | none =>
        refine ⟨_, SFStep.checkMiss s i hph hca, ?_⟩
        show Function.update s.phase i CallerPhase.waiting i ≠
          CallerPhase.start
        rw [Function.update_same]
        exact fun h => nomatch h
    | waiting =>
      cases hlo : s.lock (fp i) with
      | some j =>
        right
        obtain ⟨hfj, hwj⟩ := hinv.ownerWorking j hlo
        exact ⟨j, rfl, hfj, hwj⟩
      | none =>
        left
        cases hca : s.cache (fp i) with
        | some a =>
          refine ⟨_, SFStep.acquireHit s i a hph hlo hca, ?_⟩
          show Function.update s.phase i (CallerPhase.done a true) i ≠
            CallerPhase.waiting
          rw [Function.update_same]
          exact fun h => nomatch h
        | none =>
          refine ⟨_, SFStep.acquireMiss s i hph hlo hca, ?_⟩
          show Function.update s.phase i CallerPhase.working i ≠
            CallerPhase.waiting
          rw [Function.update_same]
          exact fun h => nomatch h
    | working =>
      left
      refine ⟨_, SFStep.finish s i hph, ?_⟩
      show Function.update s.phase i
        (CallerPhase.done (provider (fp i)) false) i ≠ CallerPhase.working
      rw [Function.update_same]
      exact fun h => nomatch h
    | done a c =>
      rw [hph] at hnotdone
      exact nomatch hnotdone

/-- Two concrete callers, both requesting fingerprint 0. -/
def wFp : Fin 2 → Nat := fun _ => 0

/-- A concrete deterministic provider stub. -/
def wProv : Nat → Nat := fun _ => 7

/-- The concrete initial state of the two-caller run. -/
def wS0 : SFState 2 Nat Nat := sfInit 2 Nat Nat

/-- Caller 0 missed the cache and is waiting for the lock. -/
def wS1 : SFState 2 Nat Nat :=
  { wS0 with phase := Function.update wS0.phase 0 CallerPhase.waiting }

/-- Caller 0 acquired the lock for fingerprint 0 and is working. -/
def wS2 : SFState 2 Nat Nat :=
  { wS1 with
    lock := Function.update wS1.lock 0 (some 0)
    phase := Function.update wS1.phase 0 CallerPhase.working }

/-- Caller 1 missed the cache (the result is not written yet) and waits. -/
def wS3 : SFState 2 Nat Nat :=
  { wS2 with phase := Function.update wS2.phase 1 CallerPhase.waiting }

/-- Caller 0 called the provider, wrote the cache entry, released the lock. -/
def wS4 : SFState 2 Nat Nat :=
  { wS3 with
    cache := Function.update wS3.cache 0 (some 7)
    lock := Function.update wS3.lock 0 none
    callCount := Function.update wS3.callCount 0 (wS3.callCount 0 + 1)
    phase := Function.update wS3.phase 0 (CallerPhase.done 7 false) }

/-- Caller 1 acquired the lock, re-checked the cache, and took the cached
artifact without a second provider call. -/
def wS5 : SFState 2 Nat Nat :=
  { wS4 with phase := Function.update wS4.phase 1 (CallerPhase.done 7 true) }

lemma wReach : Relation.ReflTransGen (SFStep wFp wProv) wS0 wS5 := by
  have h1 : SFStep wFp wProv wS0 wS1 := SFStep.checkMiss wS0 0 rfl rfl
  have h2 : SFStep wFp wProv wS1 wS2 := SFStep.acquireMiss wS1 0 (by decide)
    (by decide) rfl
  have h3 : SFStep wFp wProv wS2 wS3 := SFStep.checkMiss wS2 1 (by decide) rfl
  have h4 : SFStep wFp wProv wS3 wS4 := SFStep.finish wS3 0 (by decide)
  have h5 : SFStep wFp wProv wS4 wS5 := SFStep.acquireHit wS4 1 7 (by decide)
    (by decide) (by decide)
  exact Relation.ReflTransGen.tail (Relation.ReflTransGen.tail
    (Relation.ReflTransGen.tail (Relation.ReflTransGen.tail
      (Relation.ReflTransGen.tail Relation.ReflTransGen.refl h1) h2) h3) h4) h5

/-- Witness for `singleflight_correct`: in the concrete two-caller run the
provider was invoked exactly once and both callers hold its artifact. -/
theorem singleflight_correct_witness :
    wS5.callCount 0 = 1 ∧
      (∀ i a c, wFp i = 0 → wS5.phase i = CallerPhase.done a c →
        a = wProv 0) := by
  have h := (singleflight_correct wFp wProv 0 wS5 wReach).1 (by decide)
    ⟨0, rfl⟩
  exact h
